import Mathlib

/-!
A shallow embedding, in Lean 4, of the rail-tile bitfield accessors
(`rail_map.h`), the pseudo-random generator (`random_func.cpp`) and the
road-vehicle depot predicate (`roadveh.h`) of the JGRpp repository excerpt,
together with theorems settling the specification claims about them.

Machine integers are modelled as `Nat` with explicit reduction modulo the
word size where overflow can occur.  Functions that contain a C `assert`
are modelled as `Option`-valued: `none` is the assertion-failure branch.
-/

/-! ## Bit-manipulation macros (bitmath_func.hpp, outside the excerpt) -/

/-- Modelled from the spec: the bit-extraction macro `GB(x, s, n)` from
`bitmath_func.hpp` (not part of the excerpt); it reads the `n`-bit field of
`x` that starts at bit `s`. -/
def GB (x s n : Nat) : Nat := (x >>> s) % 2 ^ n

/-- Modelled from the spec: the bit-insertion macro `SB(x, s, n, d)` from
`bitmath_func.hpp` (not part of the excerpt); per the spec, setters built on
it "overwrite exactly their designated bit range, leaving others untouched",
so it replaces bits `[s, s+n)` of `x` by the low `n` bits of `d` and keeps
the bits below `s` and the bits at `s+n` and above. -/
def SB (x s n d : Nat) : Nat :=
  x % 2 ^ s + d % 2 ^ n * 2 ^ s + (x >>> (s + n)) * 2 ^ (s + n)

/-- Modelled from the spec: the bit-test macro `HASBIT(x, i)` from
`bitmath_func.hpp` (not part of the excerpt); it tests bit `i` of `x`. -/
def HASBIT (x i : Nat) : Bool := Nat.testBit x i

theorem SB_group_low (x s n d : Nat) :
    SB x s n d = x % 2 ^ s + (d % 2 ^ n + (x >>> (s + n)) * 2 ^ n) * 2 ^ s := by
  unfold SB
  rw [Nat.pow_add]
  ring

theorem SB_group_high (x s n d : Nat) :
    SB x s n d = x % 2 ^ s + d % 2 ^ n * 2 ^ s + (x >>> (s + n)) * 2 ^ (s + n) :=
  rfl

theorem SB_low_part_lt (x s n d : Nat) :
    x % 2 ^ s + d % 2 ^ n * 2 ^ s < 2 ^ (s + n) := by
  have hs : 0 < 2 ^ s := Nat.pos_pow_of_pos _ (by omega)
  have hn : 0 < 2 ^ n := Nat.pos_pow_of_pos _ (by omega)
  have h1 : x % 2 ^ s < 2 ^ s := Nat.mod_lt _ hs
  have h2 : d % 2 ^ n < 2 ^ n := Nat.mod_lt _ hn
  calc x % 2 ^ s + d % 2 ^ n * 2 ^ s
      < 2 ^ s + d % 2 ^ n * 2 ^ s := Nat.add_lt_add_right h1 _
    _ = (d % 2 ^ n + 1) * 2 ^ s := by ring
    _ ≤ 2 ^ n * 2 ^ s := Nat.mul_le_mul_right _ h2
    _ = 2 ^ (s + n) := by rw [Nat.pow_add]; ring

theorem SB_mod_low (x s n d : Nat) : SB x s n d % 2 ^ s = x % 2 ^ s := by
  rw [SB_group_low, Nat.add_mul_mod_self_right, Nat.mod_mod_of_dvd _ dvd_rfl]

theorem SB_shiftRight_high (x s n d : Nat) :
    SB x s n d >>> (s + n) = x >>> (s + n) := by
  have hsn : 0 < 2 ^ (s + n) := Nat.pos_pow_of_pos _ (by omega)
  rw [SB_group_high, Nat.shiftRight_eq_div_pow,
    Nat.add_mul_div_right _ _ hsn, Nat.div_eq_of_lt (SB_low_part_lt x s n d),
    Nat.zero_add, Nat.shiftRight_eq_div_pow]

theorem GB_SB_same (x s n d : Nat) : GB (SB x s n d) s n = d % 2 ^ n := by
  have hs : 0 < 2 ^ s := Nat.pos_pow_of_pos _ (by omega)
  have h1 : x % 2 ^ s < 2 ^ s := Nat.mod_lt _ hs
  unfold GB
  rw [SB_group_low, Nat.shiftRight_eq_div_pow, Nat.add_mul_div_right _ _ hs,
    Nat.div_eq_of_lt h1, Nat.zero_add, Nat.add_mul_mod_self_right,
    Nat.mod_mod_of_dvd _ dvd_rfl]

/-- Bits of the byte outside the written range `[s, s+n)` are unchanged by
`SB`. -/
theorem testBit_SB_outside (x s n d i : Nat) (h : i < s ∨ s + n ≤ i) :
    Nat.testBit (SB x s n d) i = Nat.testBit x i := by
  rcases h with h | h
  · have e := SB_mod_low x s n d
    have t1 : Nat.testBit (SB x s n d % 2 ^ s) i = Nat.testBit (x % 2 ^ s) i := by
      rw [e]
    simpa [Nat.testBit_mod_two_pow, h] using t1
  · have e := SB_shiftRight_high x s n d
    have t1 : Nat.testBit (SB x s n d >>> (s + n)) (i - (s + n))
        = Nat.testBit (x >>> (s + n)) (i - (s + n)) := by rw [e]
    rw [Nat.testBit_shiftRight, Nat.testBit_shiftRight] at t1
    have hi : s + n + (i - (s + n)) = i := by omega
    rwa [hi] at t1

/-! ## The tile array (tile.h, outside the excerpt) and rail_map.h -/

/-- One record of the global tile array `_m`.  The fields `m2..m5` are the
bytes read and written by `rail_map.h` (`m2` holds a 16-bit waypoint index).
`tileType` is the map-level tile-class discriminant; modelled from the spec:
`tile.h` with `IsTileType`/`SetTileType` is not part of the excerpt, the
spec only says the tile record carries a type discriminant owned by the
larger map module. -/
structure TileRecord where
  tileType : Nat
  m2 : Nat
  m3 : Nat
  m4 : Nat
  m5 : Nat
deriving DecidableEq

/-- A tile index into the global array (`typedef uint32 TileIndex`). -/
abbrev TileIndex : Type := Nat

/-- The global tile array `_m`, total over indices for simplicity. -/
abbrev TileMap : Type := TileIndex → TileRecord

/-- Modelled from the spec: `MP_RAILWAY`, the map-level tile class for
railway tiles (`tile.h`, outside the excerpt); its numeric value is
irrelevant to the claims. -/
def MP_RAILWAY : Nat := 1

/-- Modelled from the spec: `IsTileType` from `tile.h` (outside the
excerpt), testing the map-level tile-class discriminant. -/
def IsTileType (m : TileMap) (t : TileIndex) (ty : Nat) : Prop :=
  (m t).tileType = ty

instance (m : TileMap) (t : TileIndex) (ty : Nat) :
    Decidable (IsTileType m t ty) := by
  unfold IsTileType; infer_instance

def RAIL_TYPE_NORMAL : Nat := 0x0
def RAIL_TYPE_SIGNALS : Nat := 0x40
def RAIL_TYPE_UNUSED : Nat := 0x80
def RAIL_TYPE_DEPOT_WAYPOINT : Nat := 0xC0
def RAIL_TILE_TYPE_MASK : Nat := 0xC0

/-- `GetRailTileType`: asserts `IsTileType(t, MP_RAILWAY)`, then returns
`_m[t].m5 & RAIL_TILE_TYPE_MASK`. -/
def GetRailTileType (m : TileMap) (t : TileIndex) : Option Nat :=
  if IsTileType m t MP_RAILWAY then some ((m t).m5 &&& RAIL_TILE_TYPE_MASK)
  else none

def RAILTYPE_RAIL : Nat := 0
def RAILTYPE_ELECTRIC : Nat := 1
def RAILTYPE_MONO : Nat := 2
def RAILTYPE_MAGLEV : Nat := 3
def INVALID_RAILTYPE : Nat := 0xFF

/-- `GetRailType`: `GB(_m[t].m3, 0, 4)`; no assertion in the source. -/
def GetRailType (m : TileMap) (t : TileIndex) : Nat := GB (m t).m3 0 4

/-- `GetRailTypeCrossing`: `GB(_m[t].m4, 0, 4)`; no assertion in the source. -/
def GetRailTypeCrossing (m : TileMap) (t : TileIndex) : Nat := GB (m t).m4 0 4

/-- `GetRailTypeOnBridge`: `GB(_m[t].m3, 4, 4)`; no assertion in the source. -/
def GetRailTypeOnBridge (m : TileMap) (t : TileIndex) : Nat := GB (m t).m3 4 4

/-- `SetRailType`: `SB(_m[t].m3, 0, 4, r)`; byte store truncates mod 256. -/
def SetRailType (m : TileMap) (t : TileIndex) (r : Nat) : TileMap :=
  fun u => if u = t then { m u with m3 := SB (m u).m3 0 4 r % 256 } else m u

/-- `SetRailTypeCrossing`: `SB(_m[t].m4, 0, 4, r)`. -/
def SetRailTypeCrossing (m : TileMap) (t : TileIndex) (r : Nat) : TileMap :=
  fun u => if u = t then { m u with m4 := SB (m u).m4 0 4 r % 256 } else m u

/-- `SetRailTypeOnBridge`: `SB(_m[t].m3, 4, 4, r)`. -/
def SetRailTypeOnBridge (m : TileMap) (t : TileIndex) (r : Nat) : TileMap :=
  fun u => if u = t then { m u with m3 := SB (m u).m3 4 4 r % 256 } else m u

def TRACK_X : Nat := 0
def TRACK_Y : Nat := 1
def TRACK_UPPER : Nat := 2
def TRACK_LOWER : Nat := 3
def TRACK_LEFT : Nat := 4
def TRACK_RIGHT : Nat := 5

def TRACK_BIT_X : Nat := 1 <<< TRACK_X
def TRACK_BIT_Y : Nat := 1 <<< TRACK_Y
def TRACK_BIT_MASK : Nat := 0x3F

/-- `GetTrackBits`: `GB(_m[tile].m5, 0, 6)`. -/
def GetTrackBits (m : TileMap) (tile : TileIndex) : Nat := GB (m tile).m5 0 6

/-- `SetTrackBits`: `SB(_m[t].m5, 0, 6, b)`. -/
def SetTrackBits (m : TileMap) (t : TileIndex) (b : Nat) : TileMap :=
  fun u => if u = t then { m u with m5 := SB (m u).m5 0 6 b % 256 } else m u

/-- `GetRailDepotDirection`: `GB(_m[t].m5, 0, 2)`. -/
def GetRailDepotDirection (m : TileMap) (t : TileIndex) : Nat := GB (m t).m5 0 2

/-- `GetRailWaypointTrack`: `HASBIT(_m[t].m5, 0) ? TRACK_Y : TRACK_X`. -/
def GetRailWaypointTrack (m : TileMap) (t : TileIndex) : Nat :=
  if HASBIT (m t).m5 0 then TRACK_Y else TRACK_X

/-- `GetRailWaypointBits`: `_m[t].m5 & 1 ? TRACK_BIT_Y : TRACK_BIT_X` (the C
condition is "nonzero"). -/
def GetRailWaypointBits (m : TileMap) (t : TileIndex) : Nat :=
  if (m t).m5 &&& 1 ≠ 0 then TRACK_BIT_Y else TRACK_BIT_X

def SIGTYPE_NORMAL : Nat := 0
def SIGTYPE_ENTRY : Nat := 1
def SIGTYPE_EXIT : Nat := 2
def SIGTYPE_COMBO : Nat := 3

/-- `GetSignalType`: asserts `GetRailTileType(t) == RAIL_TYPE_SIGNALS`
(which itself asserts the tile is a railway tile), then returns
`GB(_m[t].m4, 0, 2)`. -/
def GetSignalType (m : TileMap) (t : TileIndex) : Option Nat :=
  if GetRailTileType m t = some RAIL_TYPE_SIGNALS then some (GB (m t).m4 0 2)
  else none

/-- `SetSignalType`: asserts `GetRailTileType(t) == RAIL_TYPE_SIGNALS`, then
performs `SB(_m[t].m4, 0, 2, s)`. -/
def SetSignalType (m : TileMap) (t : TileIndex) (s : Nat) : Option TileMap :=
  if GetRailTileType m t = some RAIL_TYPE_SIGNALS then
    some (fun u => if u = t then { m u with m4 := SB (m u).m4 0 2 s % 256 } else m u)
  else none

def SIG_ELECTRIC : Nat := 0
def SIG_SEMAPHORE : Nat := 1

/-- `GetSignalVariant`: `GB(_m[t].m4, 2, 1)`; the source contains NO
assertion here, the function is total. -/
def GetSignalVariant (m : TileMap) (t : TileIndex) : Nat := GB (m t).m4 2 1

/-- `SetSignalVariant`: `SB(_m[t].m4, 2, 1, v)`; no assertion in the source. -/
def SetSignalVariant (m : TileMap) (t : TileIndex) (v : Nat) : TileMap :=
  fun u => if u = t then { m u with m4 := SB (m u).m4 2 1 v % 256 } else m u

/-- The `Option`-valued forms of the unchecked type-specific accessors,
used to state the claim that accessors fail (assertion-failure, `none`) on
tiles of the wrong subtype: since the source of `GetSignalVariant` contains
no assert, its checked form always succeeds. -/
def GetSignalVariantChecked (m : TileMap) (t : TileIndex) : Option Nat :=
  some (GetSignalVariant m t)

/-- Checked form of `SetSignalVariant`; the source has no assert, so it
always succeeds. -/
def SetSignalVariantChecked (m : TileMap) (t : TileIndex) (v : Nat) :
    Option TileMap :=
  some (SetSignalVariant m t v)

/-- Checked form of `GetRailType`; the source has no assert, so it always
succeeds. -/
def GetRailTypeChecked (m : TileMap) (t : TileIndex) : Option Nat :=
  some (GetRailType m t)

/-! ## The pseudo-random generator (random_func.cpp) -/

/-- `std::rotr` on `uint32_t` for a rotation amount `0 < n < 32`:
`(x >> n) | (x << (32 - n))`, truncated to 32 bits. -/
def rotr32 (x n : Nat) : Nat := ((x >>> n) ||| (x <<< (32 - n))) % 2 ^ 32

/-- The two 32-bit state words of `Randomizer` (`state[0]`, `state[1]`). -/
structure Randomizer where
  state0 : Nat
  state1 : Nat
deriving DecidableEq

/-- `Randomizer::Next()`:
```
const uint32_t s = this->state[0];
const uint32_t t = this->state[1];
this->state[0] = s + std::rotr(t ^ 0x1234567F, 7) + 1;
return this->state[1] = std::rotr(s, 3) - 1;
```
All arithmetic on `uint32_t`, i.e. modulo `2^32`; `- 1` is modelled as
`+ (2^32 - 1)` before the reduction.  Returns the updated generator and
the returned value. -/
def Randomizer.Next (r : Randomizer) : Randomizer × Nat :=
  let s := r.state0
  let t := r.state1
  let st0 := (s + rotr32 (t ^^^ 0x1234567F) 7 + 1) % 2 ^ 32
  let st1 := (rotr32 s 3 + (2 ^ 32 - 1)) % 2 ^ 32
  (⟨st0, st1⟩, st1)

/-- `Randomizer::Next(uint32_t limit)`:
`((uint64_t)this->Next() * (uint64_t)limit) >> 32`, on `uint64_t`
(reduction modulo `2^64` made explicit). -/
def Randomizer.NextLimit (r : Randomizer) (limit : Nat) : Randomizer × Nat :=
  let p := r.Next
  (p.1, ((p.2 * limit) % 2 ^ 64) >>> 32)

/-- `Randomizer::SetSeed(uint32_t seed)`: sets both state words to `seed`. -/
def Randomizer.SetSeed (_r : Randomizer) (seed : Nat) : Randomizer :=
  ⟨seed, seed⟩

/-- The two global generators `_random` and `_interactive_random`. -/
structure GlobalRandomizers where
  random : Randomizer
  interactive_random : Randomizer

/-- `SetRandomSeed(uint32_t seed)`:
```
_random.SetSeed(seed);
_interactive_random.SetSeed(seed * 0x1234567);
```
The multiplication is on `uint32_t`, hence modulo `2^32`. -/
def SetRandomSeed (g : GlobalRandomizers) (seed : Nat) : GlobalRandomizers :=
  { g with
    random := g.random.SetSeed seed
    interactive_random := g.interactive_random.SetSeed (seed * 0x1234567 % 2 ^ 32) }

/-- The 32-bit right rotation in the words of the spec: the low `n` bits of
`x` move to the top, the rest shifts down (`x` a 32-bit value). -/
def rotrSpec (x n : Nat) : Nat := x % 2 ^ n * 2 ^ (32 - n) + x / 2 ^ n

theorem rotr32_eq_rotrSpec_7 (x : Nat) (hx : x < 2 ^ 32) :
    rotr32 x 7 = rotrSpec x 7 := by
  unfold rotr32 rotrSpec
  have hb : x >>> 7 < 2 ^ 25 := by
    rw [Nat.shiftRight_eq_div_pow]
    omega
  rw [show 32 - 7 = 25 from rfl, Nat.shiftLeft_eq, Nat.lor_comm,
    show x * 2 ^ 25 = 2 ^ 25 * x by ring, ← Nat.mul_add_lt_is_or hb,
    Nat.shiftRight_eq_div_pow]
  omega

theorem rotr32_eq_rotrSpec_3 (x : Nat) (hx : x < 2 ^ 32) :
    rotr32 x 3 = rotrSpec x 3 := by
  unfold rotr32 rotrSpec
  have hb : x >>> 3 < 2 ^ 29 := by
    rw [Nat.shiftRight_eq_div_pow]
    omega
  rw [show 32 - 3 = 29 from rfl, Nat.shiftLeft_eq, Nat.lor_comm,
    show x * 2 ^ 29 = 2 ^ 29 * x by ring, ← Nat.mul_add_lt_is_or hb,
    Nat.shiftRight_eq_div_pow]
  omega

theorem rotr32_lt (x n : Nat) : rotr32 x n < 2 ^ 32 :=
  Nat.mod_lt _ (by norm_num)

theorem Randomizer.Next_state1_lt (r : Randomizer) :
    (r.Next).1.state1 < 2 ^ 32 :=
  Nat.mod_lt _ (by norm_num)

theorem Randomizer.Next_ret_lt (r : Randomizer) : (r.Next).2 < 2 ^ 32 :=
  Nat.mod_lt _ (by norm_num)

/-! ## RandomBytesWithFallback (random_func.cpp) -/

/-- Modelled from the spec: `InteractiveRandom()` (declared in
`random_func.hpp`, outside the excerpt) is "the UI-side pseudo-random
generator", i.e. `_interactive_random.Next()`; the generator state is passed
explicitly. -/
def InteractiveRandom (g : Randomizer) : Randomizer × Nat := g.Next

/-- The platform cryptographic source (`getrandom` and friends), an external
OS facility modelled as an oracle: `some bytes` means the call succeeded and
wrote `bytes.length` bytes over the front of the buffer before returning
that count; `none` means it reported an error. -/
abbrev CryptoResult : Type := Option (List Nat)

/-- The effect on the buffer of the cryptographic call writing `bytes` over
its front. -/
def overwritePrefix (buf bytes : List Nat) : List Nat :=
  bytes.take buf.length ++ buf.drop bytes.length

/-- The fallback loop of `RandomBytesWithFallback`:
```
for (uint i = 0; i < buf.size(); i++) {
  uint64_t current_time = ...now...;
  buf[i] = static_cast<uint8_t>(SimpleHash64(current_time ^ InteractiveRandom()));
}
```
`hash` models `SimpleHash64` (`hash_func.hpp`, outside the excerpt) and
`times i` the timestamp observed at iteration `i`; the cast to `uint8_t`
is `% 256`. -/
def fallbackLoop (hash times : Nat → Nat) (g : Randomizer) (buf : List Nat)
    (i : Nat) : List Nat × Randomizer :=
  if h : i < buf.length then
    let p := InteractiveRandom g
    fallbackLoop hash times p.1 (buf.set i (hash (times i ^^^ p.2) % 256)) (i + 1)
  else (buf, g)
termination_by buf.length - i
decreasing_by simp only [List.length_set]; omega

/-- The fallback tail of `RandomBytesWithFallback`:
```
bool have_warned = warned_once.exchange(true);
DEBUG(misc, have_warned ? 1 : 0, "...");
for (...) ...
```
Returns the buffer, the generator, the new `warned_once` flag and the list
of debug-message verbosity levels emitted. -/
def fallbackPath (hash times : Nat → Nat) (g : Randomizer) (warned : Bool)
    (buf : List Nat) : List Nat × Randomizer × Bool × List Nat :=
  let have_warned := warned
  let p := fallbackLoop hash times g buf 0
  (p.1, p.2, true, [if have_warned then 1 else 0])

/-- `RandomBytesWithFallback(std::span<uint8_t> buf)` on the `getrandom`
configuration (the code path of the excerpt that can succeed, partially
succeed, or fail):
```
auto res = getrandom(buf.data(), buf.size(), 0);
if (res > 0 && static_cast<size_t>(res) == buf.size()) return;
... fallback ...
```
A partial or failed cryptographic call falls through to the fallback,
which overwrites every byte.  The function returns no error indication:
its result is just the filled buffer plus the threaded global state. -/
def RandomBytesWithFallback (hash times : Nat → Nat) (crypto : CryptoResult)
    (g : Randomizer) (warned : Bool) (buf : List Nat) :
    List Nat × Randomizer × Bool × List Nat :=
  match crypto with
  | some bytes =>
    if 0 < bytes.length ∧ bytes.length = buf.length then
      (overwritePrefix buf bytes, g, warned, [])
    else fallbackPath hash times g warned (overwritePrefix buf bytes)
  | none => fallbackPath hash times g warned buf

/-- The condition under which a call reaches the fallback path. -/
def reachesFallback (crypto : CryptoResult) (bufLen : Nat) : Prop :=
  match crypto with
  | some bytes => ¬(0 < bytes.length ∧ bytes.length = bufLen)
  | none => True

instance (c : CryptoResult) (n : Nat) : Decidable (reachesFallback c n) := by
  unfold reachesFallback
  cases c <;> infer_instance

/-- The input of one `RandomBytesWithFallback` call: the oracle answer of
the cryptographic source and the buffer to fill. -/
structure RandomCall where
  crypto : CryptoResult
  buf : List Nat

/-- Run a sequence of `RandomBytesWithFallback` calls, threading the
generator and the `warned_once` flag, collecting all debug-message levels. -/
def runCalls (hash times : Nat → Nat) (g : Randomizer) (warned : Bool) :
    List RandomCall → Bool × List Nat
  | [] => (warned, [])
  | c :: cs =>
    let r := RandomBytesWithFallback hash times c.crypto g warned c.buf
    let rest := runCalls hash times r.2.1 r.2.2.1 cs
    (rest.1, r.2.2.2 ++ rest.2)

/-! ## Road vehicles (roadveh.h) -/

/-- Modelled from the spec: the `VEH_Road` vehicle-type tag (`vehicle.h`,
outside the excerpt); its numeric value is irrelevant to the claims. -/
def VEH_Road : Nat := 1

/-- Modelled from the spec: the fields of `Vehicle` read by `roadveh.h`
(`vehicle.h` is outside the excerpt): the vehicle-type tag `type`, the
road-vehicle state `u.road.state` (here `road_state`), and `vehstatus`. -/
structure Vehicle where
  type : Nat
  road_state : Nat
  vehstatus : Nat

/-- `IsRoadVehInDepot`: asserts `v->type == VEH_Road`, then returns
`v->u.road.state == 254`. -/
def IsRoadVehInDepot (v : Vehicle) : Option Bool :=
  if v.type = VEH_Road then some (decide (v.road_state = 254)) else none

/-! ## Helper lemmas about the fallback fill -/

theorem overwritePrefix_length (buf bytes : List Nat) :
    (overwritePrefix buf bytes).length = buf.length := by
  simp [overwritePrefix]
  omega

theorem overwritePrefix_full (buf bytes : List Nat)
    (h : bytes.length = buf.length) : overwritePrefix buf bytes = bytes := by
  unfold overwritePrefix
  rw [← h, List.take_length, h, List.drop_length, List.append_nil]

theorem list_eq_of_low_agree (b1 b2 : List Nat) (i : Nat)
    (hl : b1.length = b2.length) (hle : b1.length ≤ i)
    (hj : ∀ j, j < i → b1[j]? = b2[j]?) : b1 = b2 := by
  apply List.ext_getElem?
  intro j
  by_cases hji : j < i
  · exact hj j hji
  · rw [List.getElem?_eq_none (by omega), List.getElem?_eq_none (by omega)]

theorem fallbackLoop_length_aux (hash times : Nat → Nat) :
    ∀ (n : Nat) (g : Randomizer) (buf : List Nat) (i : Nat),
      buf.length - i ≤ n →
      (fallbackLoop hash times g buf i).1.length = buf.length := by
  intro n
  induction n with
  | zero =>
    intro g buf i h
    rw [fallbackLoop]
    have hc : ¬ i < buf.length := by omega
    simp [hc]
  | succ n ih =>
    intro g buf i h
    rw [fallbackLoop]
    by_cases hc : i < buf.length
    · simp only [hc, dif_pos]
      rw [ih _ _ _ (by simp only [List.length_set]; omega)]
      simp [List.length_set]
    · simp [hc]

theorem fallbackLoop_length (hash times : Nat → Nat) (g : Randomizer)
    (buf : List Nat) (i : Nat) :
    (fallbackLoop hash times g buf i).1.length = buf.length :=
  fallbackLoop_length_aux hash times (buf.length - i) g buf i (Nat.le_refl _)

/-- One-step unfolding of `fallbackLoop`. -/
theorem fallbackLoop_eq (hash times : Nat → Nat) (g : Randomizer)
    (buf : List Nat) (i : Nat) :
    fallbackLoop hash times g buf i =
      if i < buf.length then
        fallbackLoop hash times (InteractiveRandom g).1
          (buf.set i (hash (times i ^^^ (InteractiveRandom g).2) % 256)) (i + 1)
      else (buf, g) := by
  rw [fallbackLoop]
  by_cases h : i < buf.length <;> simp [h]

theorem fallbackLoop_congr_aux (hash times : Nat → Nat) :
    ∀ (n : Nat) (g : Randomizer) (b1 b2 : List Nat) (i : Nat),
      b1.length - i ≤ n → b1.length = b2.length →
      (∀ j, j < i → b1[j]? = b2[j]?) →
      fallbackLoop hash times g b1 i = fallbackLoop hash times g b2 i := by
  intro n
  induction n with
  | zero =>
    intro g b1 b2 i hn hl hj
    have h1 : ¬ i < b1.length := by omega
    have h2 : ¬ i < b2.length := by omega
    conv_lhs => rw [fallbackLoop_eq]
    conv_rhs => rw [fallbackLoop_eq]
    simp only [h1, h2, if_neg, not_false_iff]
    rw [list_eq_of_low_agree b1 b2 i hl (by omega) hj]
  | succ n ih =>
    intro g b1 b2 i hn hl hj
    conv_lhs => rw [fallbackLoop_eq]
    conv_rhs => rw [fallbackLoop_eq]
    by_cases hc : i < b1.length
    · have hc2 : i < b2.length := by omega
      simp only [hc, hc2, if_pos]
      apply ih
      · simp only [List.length_set]; omega
      · simp [List.length_set, hl]
      · intro j hji
        by_cases hjeq : j = i
        · subst hjeq
          rw [List.getElem?_set_self hc, List.getElem?_set_self hc2]
        · rw [List.getElem?_set_ne (fun h => hjeq h.symm),
            List.getElem?_set_ne (fun h => hjeq h.symm)]
          exact hj j (by omega)
    · have hc2 : ¬ i < b2.length := by omega
      simp only [hc, hc2, if_neg, not_false_iff]
      rw [list_eq_of_low_agree b1 b2 i hl (by omega) hj]

theorem fallbackLoop_congr (hash times : Nat → Nat) (g : Randomizer)
    (b1 b2 : List Nat) (hl : b1.length = b2.length) :
    fallbackLoop hash times g b1 0 = fallbackLoop hash times g b2 0 :=
  fallbackLoop_congr_aux hash times b1.length g b1 b2 0 (by omega) hl
    (fun j hj => absurd hj (Nat.not_lt_zero j))

/-! ## Claim theorems -/

/-- C1: for every pair of 32-bit state words `(s0, s1)`, one call to
`Randomizer::Next()` updates the state to
`s0' = s0 + rotr(s1 ^ 0x1234567F, 7) + 1` and `s1' = rotr(s0, 3) - 1`
(all arithmetic modulo `2^32`, `rotr` a 32-bit right rotation, using the
pre-call `s0` in both updates), and returns the new `s1'`. -/
theorem C1_Next_update (r : Randomizer) (h0 : r.state0 < 2 ^ 32)
    (h1 : r.state1 < 2 ^ 32) :
    (r.Next).1.state0
        = (r.state0 + rotrSpec (r.state1 ^^^ 0x1234567F) 7 + 1) % 2 ^ 32 ∧
    (r.Next).1.state1 = (rotrSpec r.state0 3 + (2 ^ 32 - 1)) % 2 ^ 32 ∧
    (r.Next).2 = (r.Next).1.state1 := by
  have hm : (0x1234567F : Nat) < 2 ^ 32 := by norm_num
  have hx : r.state1 ^^^ 0x1234567F < 2 ^ 32 := Nat.xor_lt_two_pow h1 hm
  refine ⟨?_, ?_, rfl⟩
  · show (r.state0 + rotr32 (r.state1 ^^^ 0x1234567F) 7 + 1) % 2 ^ 32 = _
    rw [rotr32_eq_rotrSpec_7 _ hx]
  · show (rotr32 r.state0 3 + (2 ^ 32 - 1)) % 2 ^ 32 = _
    rw [rotr32_eq_rotrSpec_3 _ h0]

theorem C1_witness :
    ((Randomizer.mk 5 9).Next).1.state0
        = (5 + rotrSpec (9 ^^^ 0x1234567F) 7 + 1) % 2 ^ 32 ∧
    ((Randomizer.mk 5 9).Next).1.state1
        = (rotrSpec 5 3 + (2 ^ 32 - 1)) % 2 ^ 32 ∧
    ((Randomizer.mk 5 9).Next).2 = ((Randomizer.mk 5 9).Next).1.state1 :=
  C1_Next_update ⟨5, 9⟩ (by norm_num) (by norm_num)

/-- C3: for every state and every `limit` with `0 < limit` (a 32-bit
value), `Randomizer::Next(limit)` returns `v` with `0 ≤ v < limit`,
computed as the high 32 bits of the 64-bit product of the raw `Next()`
output and `limit`. -/
theorem C3_NextLimit_range (r : Randomizer) (limit : Nat) (hpos : 0 < limit)
    (hlt : limit < 2 ^ 32) :
    (r.NextLimit limit).2 < limit ∧
    (r.NextLimit limit).2 = (r.Next).2 * limit / 2 ^ 32 := by
  have hx : (r.Next).2 < 2 ^ 32 := Randomizer.Next_ret_lt r
  have hprod : (r.Next).2 * limit < 2 ^ 64 := by
    calc (r.Next).2 * limit
        ≤ (r.Next).2 * 2 ^ 32 := Nat.mul_le_mul_left _ (Nat.le_of_lt hlt)
      _ < 2 ^ 32 * 2 ^ 32 := by
          exact Nat.mul_lt_mul_of_lt_of_le hx (Nat.le_refl _) (by norm_num)
      _ = 2 ^ 64 := by norm_num
  have heq : (r.NextLimit limit).2 = (r.Next).2 * limit / 2 ^ 32 := by
    show ((r.Next).2 * limit % 2 ^ 64) >>> 32 = _
    rw [Nat.mod_eq_of_lt hprod, Nat.shiftRight_eq_div_pow]
  refine ⟨?_, heq⟩
  rw [heq]
  rw [Nat.div_lt_iff_lt_mul (by norm_num : 0 < 2 ^ 32)]
  calc (r.Next).2 * limit = limit * (r.Next).2 := Nat.mul_comm _ _
    _ < limit * 2 ^ 32 := by
        exact Nat.mul_lt_mul_of_le_of_lt (Nat.le_refl _) hx hpos
  
theorem C3_witness :
    ((Randomizer.mk 7 11).NextLimit 10).2 < 10 ∧
    ((Randomizer.mk 7 11).NextLimit 10).2
        = ((Randomizer.mk 7 11).Next).2 * 10 / 2 ^ 32 :=
  C3_NextLimit_range ⟨7, 11⟩ 10 (by norm_num) (by norm_num)

/-- C7: `SetSeed(seed)` sets both state words to `seed`, and the global
`SetRandomSeed(seed)` seeds `_random` with `seed` and
`_interactive_random` with `seed * 0x1234567` (modulo `2^32`). -/
theorem C7_seed (r : Randomizer) (g : GlobalRandomizers) (seed : Nat) :
    (r.SetSeed seed).state0 = seed ∧ (r.SetSeed seed).state1 = seed ∧
    (SetRandomSeed g seed).random.state0 = seed ∧
    (SetRandomSeed g seed).random.state1 = seed ∧
    (SetRandomSeed g seed).interactive_random.state0
        = seed * 0x1234567 % 2 ^ 32 ∧
    (SetRandomSeed g seed).interactive_random.state1
        = seed * 0x1234567 % 2 ^ 32 :=
  ⟨rfl, rfl, rfl, rfl, rfl, rfl⟩

/-- C8: for every vehicle `v` whose type is `VEH_Road` (precondition
asserted), `IsRoadVehInDepot(v)` returns `true` if and only if the
vehicle's road state equals the sentinel 254. -/
theorem C8_depot (v : Vehicle) (h : v.type = VEH_Road) :
    (IsRoadVehInDepot v = some true ↔ v.road_state = 254) ∧
    (IsRoadVehInDepot v = some false ↔ v.road_state ≠ 254) := by
  by_cases hs : v.road_state = 254 <;> simp [IsRoadVehInDepot, h, hs]

theorem C8_witness :
    (IsRoadVehInDepot ⟨1, 254, 0⟩ = some true
        ↔ (Vehicle.mk 1 254 0).road_state = 254) ∧
    (IsRoadVehInDepot ⟨1, 254, 0⟩ = some false
        ↔ (Vehicle.mk 1 254 0).road_state ≠ 254) :=
  C8_depot ⟨1, 254, 0⟩ rfl

/-- C10: `GetRailWaypointBits(t)` equals the single track bit
corresponding to `GetRailWaypointTrack(t)`: `TRACK_BIT_Y = 1 << TRACK_Y`
when the track is `TRACK_Y` and `TRACK_BIT_X = 1 << TRACK_X` when it is
`TRACK_X`, both functions deciding on bit 0 of the same tile byte `m5`. -/
theorem C10_waypoint (m : TileMap) (t : TileIndex) :
    GetRailWaypointBits m t = 1 <<< GetRailWaypointTrack m t ∧
    GetRailWaypointTrack m t
      = (if Nat.testBit (m t).m5 0 then TRACK_Y else TRACK_X) ∧
    GetRailWaypointBits m t
      = (if Nat.testBit (m t).m5 0 then TRACK_BIT_Y else TRACK_BIT_X) := by
  unfold GetRailWaypointBits GetRailWaypointTrack HASBIT
  rw [Nat.and_one_is_mod]
  rcases Nat.mod_two_eq_zero_or_one (m t).m5 with h | h
  · have ht : Nat.testBit (m t).m5 0 = false := by
      simp [Nat.testBit_to_div_mod, h]
    simp [h, ht, TRACK_BIT_X, TRACK_X]
  · have ht : Nat.testBit (m t).m5 0 = true := by
      simp [Nat.testBit_to_div_mod, h]
    simp [h, ht, TRACK_BIT_Y, TRACK_Y]

/-- C5: for every tile `t` and every track-bit value `b` with
`0 ≤ b < 64`, `SetTrackBits(t, b)` followed by `GetTrackBits(t)` returns
exactly `b`. -/
theorem C5_trackbits_roundtrip (m : TileMap) (t : TileIndex) (b : Nat)
    (hb : b < 64) :
    GetTrackBits (SetTrackBits m t b) t = b := by
  unfold GetTrackBits SetTrackBits
  simp only [if_pos rfl]
  have h1 := GB_SB_same (m t).m5 0 6 b
  unfold GB at h1 ⊢
  rw [Nat.shiftRight_zero] at h1 ⊢
  calc SB (m t).m5 0 6 b % 256 % 2 ^ 6
      = SB (m t).m5 0 6 b % 2 ^ 6 := Nat.mod_mod_of_dvd _ (by norm_num)
    _ = b % 2 ^ 6 := h1
    _ = b := Nat.mod_eq_of_lt (by norm_num at hb ⊢; omega)

theorem C5_witness :
    GetTrackBits (SetTrackBits (fun _ => ⟨1, 0, 0, 0, 0⟩) 0 63) 0 = 63 :=
  C5_trackbits_roundtrip (fun _ => ⟨1, 0, 0, 0, 0⟩) 0 63 (by norm_num)

/-- C4, counterexample: on a concrete railway tile whose rail tile type is
`RAIL_TYPE_NORMAL` (not `RAIL_TYPE_SIGNALS`), the signal-variant accessor
and the rail-type accessor return values instead of taking an
assertion-failure branch: the claim that EVERY accessor of type-specific
bits asserts the discriminant first is false on the code
(`GetSignalVariant`, `SetSignalVariant`, `GetRailType` contain no assert). -/
theorem C4_counterexample :
    GetRailTileType (fun _ => ⟨1, 0, 0, 0, 0⟩) 0 = some RAIL_TYPE_NORMAL ∧
    RAIL_TYPE_NORMAL ≠ RAIL_TYPE_SIGNALS ∧
    GetSignalVariantChecked (fun _ => ⟨1, 0, 0, 0, 0⟩) 0 ≠ none ∧
    GetSignalVariantChecked (fun _ => ⟨1, 0, 0, 0, 0⟩) 0 = some SIG_ELECTRIC ∧
    SetSignalVariantChecked (fun _ => ⟨1, 0, 0, 0, 0⟩) 0 1 ≠ none ∧
    GetRailTypeChecked (fun _ => ⟨1, 0, 0, 0, 0⟩) 0 ≠ none := by
  refine ⟨by decide, by decide, by decide, by decide, ?_, by decide⟩
  simp [SetSignalVariantChecked]

/-- C4 (amended): among the rail-tile accessors of type-specific bits, the
signal-type accessors `GetSignalType` and `SetSignalType` assert the
discriminant: for every tile whose rail tile type is not
`RAIL_TYPE_SIGNALS` (including non-railway tiles, where the nested
`GetRailTileType` assertion fires first), they take the assertion-failure
branch rather than returning a value.  `GetSignalVariant`,
`SetSignalVariant` and the rail-type readers perform no such check. -/
theorem C4_signal_asserts (m : TileMap) (t : TileIndex) (s : Nat)
    (h : GetRailTileType m t ≠ some RAIL_TYPE_SIGNALS) :
    GetSignalType m t = none ∧ SetSignalType m t s = none := by
  unfold GetSignalType SetSignalType
  rw [if_neg h, if_neg h]
  exact ⟨rfl, rfl⟩

theorem C4_witness :
    GetSignalType (fun _ => ⟨1, 0, 0, 0, 0⟩) 0 = none ∧
    SetSignalType (fun _ => ⟨1, 0, 0, 0, 0⟩) 0 1 = none :=
  C4_signal_asserts (fun _ => ⟨1, 0, 0, 0, 0⟩) 0 1 (by decide)

/-- Bits of the byte outside the written range are unchanged by an `SB`
followed by the byte-store truncation, for bit positions within the byte. -/
theorem testBit_SB256_outside (x s n d i : Nat) (hi : i < 8)
    (h : i < s ∨ s + n ≤ i) :
    Nat.testBit (SB x s n d % 256) i = Nat.testBit x i := by
  have h256 : (256 : Nat) = 2 ^ 8 := by norm_num
  rw [h256, Nat.testBit_mod_two_pow, testBit_SB_outside x s n d i h]
  simp [hi]

/-- C6: every setter modifies only its designated bit range of its
designated byte of the tile record: all other bits of that byte (witnessed
by an arbitrary bit position outside the range, within the byte), all
other bytes of that tile, and all other tiles of the map are unchanged.
For `SetSignalType` this is stated for the case where its assertion
passes (`Option.elim`). -/
theorem C6_setters_frame (m : TileMap) (t u : TileIndex) (v : Nat)
    (i1 i2 i3 i4 i5 i6 : Nat) (hu : u ≠ t)
    (hi1 : 4 ≤ i1) (hi1' : i1 < 8)
    (hi2 : 4 ≤ i2) (hi2' : i2 < 8)
    (hi3 : i3 < 4)
    (hi4 : 6 ≤ i4) (hi4' : i4 < 8)
    (hi5 : 2 ≤ i5) (hi5' : i5 < 8)
    (hi6 : i6 < 2 ∨ 3 ≤ i6) (hi6' : i6 < 8) :
    ((SetRailType m t v t).tileType = (m t).tileType ∧
     (SetRailType m t v t).m2 = (m t).m2 ∧
     (SetRailType m t v t).m4 = (m t).m4 ∧
     (SetRailType m t v t).m5 = (m t).m5 ∧
     Nat.testBit (SetRailType m t v t).m3 i1 = Nat.testBit (m t).m3 i1 ∧
     SetRailType m t v u = m u) ∧
    ((SetRailTypeCrossing m t v t).tileType = (m t).tileType ∧
     (SetRailTypeCrossing m t v t).m2 = (m t).m2 ∧
     (SetRailTypeCrossing m t v t).m3 = (m t).m3 ∧
     (SetRailTypeCrossing m t v t).m5 = (m t).m5 ∧
     Nat.testBit (SetRailTypeCrossing m t v t).m4 i2
        = Nat.testBit (m t).m4 i2 ∧
     SetRailTypeCrossing m t v u = m u) ∧
    ((SetRailTypeOnBridge m t v t).tileType = (m t).tileType ∧
     (SetRailTypeOnBridge m t v t).m2 = (m t).m2 ∧
     (SetRailTypeOnBridge m t v t).m4 = (m t).m4 ∧
     (SetRailTypeOnBridge m t v t).m5 = (m t).m5 ∧
     Nat.testBit (SetRailTypeOnBridge m t v t).m3 i3
        = Nat.testBit (m t).m3 i3 ∧
     SetRailTypeOnBridge m t v u = m u) ∧
    ((SetTrackBits m t v t).tileType = (m t).tileType ∧
     (SetTrackBits m t v t).m2 = (m t).m2 ∧
     (SetTrackBits m t v t).m3 = (m t).m3 ∧
     (SetTrackBits m t v t).m4 = (m t).m4 ∧
     Nat.testBit (SetTrackBits m t v t).m5 i4 = Nat.testBit (m t).m5 i4 ∧
     SetTrackBits m t v u = m u) ∧
    ((SetSignalType m t v).elim True (fun m2 =>
      (m2 t).tileType = (m t).tileType ∧
      (m2 t).m2 = (m t).m2 ∧
      (m2 t).m3 = (m t).m3 ∧
      (m2 t).m5 = (m t).m5 ∧
      Nat.testBit (m2 t).m4 i5 = Nat.testBit (m t).m4 i5 ∧
      m2 u = m u)) ∧
    ((SetSignalVariant m t v t).tileType = (m t).tileType ∧
     (SetSignalVariant m t v t).m2 = (m t).m2 ∧
     (SetSignalVariant m t v t).m3 = (m t).m3 ∧
     (SetSignalVariant m t v t).m5 = (m t).m5 ∧
     Nat.testBit (SetSignalVariant m t v t).m4 i6
        = Nat.testBit (m t).m4 i6 ∧
     SetSignalVariant m t v u = m u) := by
  refine ⟨⟨?_, ?_, ?_, ?_, ?_, ?_⟩, ⟨?_, ?_, ?_, ?_, ?_, ?_⟩,
    ⟨?_, ?_, ?_, ?_, ?_, ?_⟩, ⟨?_, ?_, ?_, ?_, ?_, ?_⟩, ?_,
    ⟨?_, ?_, ?_, ?_, ?_, ?_⟩⟩
  · simp [SetRailType]
  · simp [SetRailType]
  · simp [SetRailType]
  · simp [SetRailType]
  · simp only [SetRailType, if_pos rfl]
    exact testBit_SB256_outside _ 0 4 v i1 hi1' (Or.inr hi1)
  · simp [SetRailType, hu]
  · simp [SetRailTypeCrossing]
  · simp [SetRailTypeCrossing]
  · simp [SetRailTypeCrossing]
  · simp [SetRailTypeCrossing]
  · simp only [SetRailTypeCrossing, if_pos rfl]
    exact testBit_SB256_outside _ 0 4 v i2 hi2' (Or.inr hi2)
  · simp [SetRailTypeCrossing, hu]
  · simp [SetRailTypeOnBridge]
  · simp [SetRailTypeOnBridge]
  · simp [SetRailTypeOnBridge]
  · simp [SetRailTypeOnBridge]
  · simp only [SetRailTypeOnBridge, if_pos rfl]
    exact testBit_SB256_outside _ 4 4 v i3 (by omega) (Or.inl hi3)
  · simp [SetRailTypeOnBridge, hu]
  · simp [SetTrackBits]
  · simp [SetTrackBits]
  · simp [SetTrackBits]
  · simp [SetTrackBits]
  · simp only [SetTrackBits, if_pos rfl]
    exact testBit_SB256_outside _ 0 6 v i4 hi4' (Or.inr hi4)
  · simp [SetTrackBits, hu]
  · unfold SetSignalType
    by_cases hsig : GetRailTileType m t = some RAIL_TYPE_SIGNALS
    · rw [if_pos hsig]
      refine ⟨by simp, by simp, by simp, by simp, ?_, by simp [hu]⟩
      simp only [Option.elim, if_pos rfl]
      exact testBit_SB256_outside _ 0 2 v i5 hi5' (Or.inr hi5)
    · rw [if_neg hsig]
      trivial
  · simp [SetSignalVariant]
  · simp [SetSignalVariant]
  · simp [SetSignalVariant]
  · simp [SetSignalVariant]
  · simp only [SetSignalVariant, if_pos rfl]
    exact testBit_SB256_outside _ 2 1 v i6 hi6' (by omega)
  · simp [SetSignalVariant, hu]

theorem C6_witness :
    SetRailType (fun _ => ⟨1, 0, 0, 0, 64⟩) 0 1 1
        = (fun _ => (⟨1, 0, 0, 0, 64⟩ : TileRecord)) 1 ∧
    Nat.testBit (SetTrackBits (fun _ => ⟨1, 0, 0, 0, 64⟩) 0 1 0).m5 7
        = Nat.testBit ((fun _ => (⟨1, 0, 0, 0, 64⟩ : TileRecord)) 0).m5 7 :=
  by
  have h := C6_setters_frame (fun _ => ⟨1, 0, 0, 0, 64⟩) 0 1 1 7 7 2 7 5 4
    (by decide) (by omega) (by omega) (by omega) (by omega) (by omega)
    (by omega) (by omega) (by omega) (by omega) (by omega) (by omega)
  exact ⟨h.1.2.2.2.2.2, h.2.2.2.1.2.2.2.2.1⟩

/-- C2: for every buffer, `RandomBytesWithFallback` fills the whole buffer
before returning, on every code path (cryptographic source succeeding,
partially succeeding, or unavailable), and returns no failure indication.
Full filling is expressed as: the result has the buffer's length and does
not depend on the buffer's prior contents (every byte is overwritten). -/
theorem C2_full_fill (hash times : Nat → Nat) (crypto : CryptoResult)
    (g : Randomizer) (warned : Bool) (buf buf' : List Nat)
    (hlen : buf'.length = buf.length) :
    ((RandomBytesWithFallback hash times crypto g warned buf).1).length
        = buf.length ∧
    (RandomBytesWithFallback hash times crypto g warned buf').1
        = (RandomBytesWithFallback hash times crypto g warned buf).1 := by
  unfold RandomBytesWithFallback fallbackPath
  cases crypto with
  | none =>
    refine ⟨?_, ?_⟩
    · simp [fallbackLoop_length]
    · simpa using congrArg Prod.fst (fallbackLoop_congr hash times g buf' buf hlen)
  | some bytes =>
    dsimp only
    by_cases hc : 0 < bytes.length ∧ bytes.length = buf.length
    · have hc' : 0 < bytes.length ∧ bytes.length = buf'.length :=
        ⟨hc.1, hc.2.trans hlen.symm⟩
      rw [if_pos hc, if_pos hc']
      refine ⟨?_, ?_⟩
      · simp [overwritePrefix_length]
      · rw [overwritePrefix_full _ _ hc.2, overwritePrefix_full _ _ hc'.2]
    · have hc' : ¬(0 < bytes.length ∧ bytes.length = buf'.length) :=
        fun hx => hc ⟨hx.1, hx.2.trans hlen⟩
      rw [if_neg hc, if_neg hc']
      refine ⟨?_, ?_⟩
      · simp [fallbackLoop_length, overwritePrefix_length]
      · have hl2 : (overwritePrefix buf' bytes).length
            = (overwritePrefix buf bytes).length := by
          rw [overwritePrefix_length, overwritePrefix_length, hlen]
        simpa using congrArg Prod.fst (fallbackLoop_congr hash times g _ _ hl2)

theorem C2_witness :
    ((RandomBytesWithFallback (fun x => x) (fun _ => 0) none ⟨0, 0⟩ false
        [5, 6]).1).length = 2 ∧
    (RandomBytesWithFallback (fun x => x) (fun _ => 0) none ⟨0, 0⟩ false
        [7, 8]).1
      = (RandomBytesWithFallback (fun x => x) (fun _ => 0) none ⟨0, 0⟩ false
        [5, 6]).1 :=
  C2_full_fill (fun x => x) (fun _ => 0) none ⟨0, 0⟩ false [5, 6] [7, 8] rfl

/-- Per-call behaviour of the `warned_once` flag and the debug log: a call
either returns on the cryptographic path (no message, flag untouched) or
reaches the fallback (one message at level 1 if the flag was already set,
level 0 otherwise, and the flag is set). -/
theorem RandomBytesWithFallback_log (hash times : Nat → Nat)
    (crypto : CryptoResult) (g : Randomizer) (warned : Bool)
    (buf : List Nat) :
    ((RandomBytesWithFallback hash times crypto g warned buf).2.2.2 = [] ∧
     (RandomBytesWithFallback hash times crypto g warned buf).2.2.1
        = warned) ∨
    ((RandomBytesWithFallback hash times crypto g warned buf).2.2.2
        = [if warned then 1 else 0] ∧
     (RandomBytesWithFallback hash times crypto g warned buf).2.2.1
        = true) := by
  unfold RandomBytesWithFallback fallbackPath
  cases crypto with
  | none => right; exact ⟨rfl, rfl⟩
  | some bytes =>
    dsimp only
    by_cases hc : 0 < bytes.length ∧ bytes.length = buf.length
    · left
      rw [if_pos hc]
      exact ⟨rfl, rfl⟩
    · right
      rw [if_neg hc]
      exact ⟨rfl, rfl⟩

/-- Across a sequence of calls: once the flag is set no level-0 message is
ever emitted, and from a fresh flag at most one level-0 message is
emitted in total. -/
theorem runCalls_zero_count (hash times : Nat → Nat) :
    ∀ (calls : List RandomCall) (g : Randomizer) (warned : Bool),
      (warned = true → (runCalls hash times g warned calls).2.count 0 = 0) ∧
      (runCalls hash times g warned calls).2.count 0 ≤ 1 := by
  intro calls
  induction calls with
  | nil =>
    intro g warned
    simp [runCalls]
  | cons c cs ih =>
    intro g warned
    simp only [runCalls, List.count_append]
    rcases RandomBytesWithFallback_log hash times c.crypto g warned c.buf
      with ⟨hlog, hflag⟩ | ⟨hlog, hflag⟩
    · rw [hlog, hflag]
      have := ih (RandomBytesWithFallback hash times c.crypto g warned
        c.buf).2.1 warned
      simpa using this
    · rw [hlog, hflag]
      have := ih (RandomBytesWithFallback hash times c.crypto g warned
        c.buf).2.1 true
      cases warned with
      | true => simp [this.1 rfl]
      | false =>
        have h0 := this.1 rfl
        simp [h0]

/-- C9: across every sequence of calls to `RandomBytesWithFallback`, the
full-detail (level 0) warning is emitted at most once (starting from a
fresh `warned_once` flag); a fallback-reaching call with the flag clear
logs at level 0 and sets the flag by the exchange, and every
fallback-reaching call with the flag already set logs only at the demoted
level 1. -/
theorem C9_warn_once (hash times : Nat → Nat) (g : Randomizer)
    (calls : List RandomCall) (crypto : CryptoResult) (buf : List Nat)
    (hfb : reachesFallback crypto buf.length) :
    (runCalls hash times g false calls).2.count 0 ≤ 1 ∧
    ((RandomBytesWithFallback hash times crypto g false buf).2.2.1 = true ∧
     (RandomBytesWithFallback hash times crypto g false buf).2.2.2 = [0]) ∧
    ((RandomBytesWithFallback hash times crypto g true buf).2.2.1 = true ∧
     (RandomBytesWithFallback hash times crypto g true buf).2.2.2 = [1]) := by
  refine ⟨(runCalls_zero_count hash times calls g false).2, ?_, ?_⟩ <;>
  · unfold RandomBytesWithFallback fallbackPath
    cases crypto with
    | none => exact ⟨rfl, rfl⟩
    | some bytes =>
      dsimp only
      rw [if_neg (by simpa [reachesFallback] using hfb)]
      exact ⟨rfl, rfl⟩

theorem C9_witness :
    (RandomBytesWithFallback (fun x => x) (fun _ => 0) none ⟨0, 0⟩ false
        [0]).2.2.1 = true ∧
    (RandomBytesWithFallback (fun x => x) (fun _ => 0) none ⟨0, 0⟩ false
        [0]).2.2.2 = [0] :=
  (C9_warn_once (fun x => x) (fun _ => 0) ⟨0, 0⟩ [] none [0]
    (by simp [reachesFallback])).2.1
